import Mathlib

/-!
# DebussyOps orchestration core: a shallow embedding

The development embeds, function by function, the keyword intent parser
(`internal/nlu/providers/keyword.go`), the orchestrator
(`internal/orchestrator/orchestrator.go`) and the `/v1/query` handler
(`cmd/orchestrator/main.go`).

Conventions of the embedding.

* A Go `string` is a Lean `String`, read as its sequence of runes (Go text
  that is valid UTF-8, which is what `encoding/json` hands to the handler).
* A Go `error` is the record `GoError` of its message.
* A Go `map[string]T` is an association list `GoMap T`; indexing reads the
  first entry of a key and assignment removes every older entry of the key.
* `interface{}` values are the JSON-shaped `Value`s.
* Calls that leave the process (the parser behind the `nlu.NLU` interface, the
  transport `Handle`) are recorded in an explicit `World` trace that is
  threaded through the stateful functions.
-/

namespace DebussyOps

/-! ## Go values -/

/-- A Go `error`, identified with the message `Error()` returns. -/
structure GoError where
  msg : String
  deriving DecidableEq, Repr

/-- A value held in an `interface{}` slot of a payload. -/
inductive Value where
  | null
  | bool (b : Bool)
  | number (literal : String)
  | str (s : String)
  | array (items : List Value)
  | object (fields : List (String × Value))

/-- A Go `map[string]T`. -/
abbrev GoMap (β : Type) := List (String × β)

/-- The two-valued index expression `v, ok := m[k]`. -/
def GoMap.index {β : Type} (m : GoMap β) (k : String) : Option β :=
  List.lookup k m

/-- The assignment `m[k] = v`. -/
def GoMap.assign {β : Type} (m : GoMap β) (k : String) (v : β) : GoMap β :=
  (k, v) :: m.filter (fun e => e.1 != k)

/-- Number of entries stored under key `k`. -/
def GoMap.entries {β : Type} (m : GoMap β) (k : String) : Nat :=
  (m.filter (fun e => e.1 == k)).length

/-- The type `map[string]interface{}`. -/
abbrev Payload := GoMap Value

/-! ## `internal/nlu/nlu.go` -/

/-- The struct `nlu.AgentRequest`. -/
structure AgentRequest where
  ID : String
  Agent : String
  Action : String
  Payload : Payload

/-! ## Go library functions used by the parser -/

/-- The function `unicode.ToLower`: the ASCII range is handled inline, every
other rune goes through the Unicode lower-case table `lowerTable` (runtime
data of Go, `unicode.To(unicode.LowerCase, r)`). -/
def unicodeToLower (lowerTable : Char → Char) (r : Char) : Char :=
  if r.toNat ≤ 0x7F then
    if 'A' ≤ r ∧ r ≤ 'Z' then Char.ofNat (r.toNat + ('a'.toNat - 'A'.toNat)) else r
  else lowerTable r

/-- The byte-wise rewrite of the ASCII fast path of `strings.ToLower`. -/
def asciiLowerByte (c : Char) : Char :=
  if 'A' ≤ c ∧ c ≤ 'Z' then Char.ofNat (c.toNat + ('a'.toNat - 'A'.toNat)) else c

/-- The function `strings.ToLower`: an ASCII-only string without upper-case
letters is returned as it is, an ASCII-only string is rewritten byte by byte,
and any other string is `strings.Map(unicode.ToLower, s)`. -/
def ToLower (lowerTable : Char → Char) (s : String) : String :=
  let isASCII := s.data.all (fun c => decide (c.toNat < 0x80))
  let hasUpper := s.data.any (fun c => decide ('A' ≤ c ∧ c ≤ 'Z'))
  if isASCII then
    if !hasUpper then s else String.mk (s.data.map asciiLowerByte)
  else String.mk (s.data.map (unicodeToLower lowerTable))

/-- Substring search on rune sequences: does `sub` occur in `s` at some
offset, tried from left to right. -/
def containsChars : List Char → List Char → Bool
  | [], sub => sub.isPrefixOf []
  | c :: cs, sub => sub.isPrefixOf (c :: cs) || containsChars cs sub

/-- The function `strings.Contains`. -/
def Contains (s substr : String) : Bool :=
  containsChars s.data substr.data

/-! ## `github.com/google/uuid` -/

/-- The type `uuid.UUID`, `[16]byte`. -/
abbrev UUID := { bs : List (Fin 256) // bs.length = 16 }

/-- The function `uuid.NewRandom` applied to the 16 bytes read from the
random source: the version and variant bits are overwritten. -/
def NewRandom (rnd : UUID) : UUID :=
  ⟨(rnd.val.modify (fun b => (b &&& 0x0f) ||| 0x40) 6).modify
      (fun b => (b &&& 0x3f) ||| 0x80) 8, by
    simp [List.length_modify, rnd.property]⟩

/-- One digit of `hex.Encode`, from the table `0123456789abcdef`. -/
def hexDigit (n : Nat) : Char :=
  if n < 10 then Char.ofNat ('0'.toNat + n) else Char.ofNat ('a'.toNat + (n - 10))

/-- The function `hex.Encode`: two digits per byte, high nibble first. -/
def hexEncode : List (Fin 256) → List Char
  | [] => []
  | b :: bs => hexDigit (b.val / 16) :: hexDigit (b.val % 16) :: hexEncode bs

/-- The method `UUID.String`: the form `xxxxxxxx-xxxx-xxxx-xxxx-xxxxxxxxxxxx`. -/
def UUID.String (u : UUID) : String :=
  String.mk (hexEncode (u.val.take 4) ++ '-' :: hexEncode ((u.val.drop 4).take 2)
    ++ '-' :: hexEncode ((u.val.drop 6).take 2)
    ++ '-' :: hexEncode ((u.val.drop 8).take 2)
    ++ '-' :: hexEncode (u.val.drop 10))

/-! ## `internal/nlu/providers/keyword.go` -/

/-- The loop of `containsAny` over the word list, leaving at the first hit. -/
def containsAnyLoop (in_ : String) : List String → Bool
  | [] => false
  | w :: list => if Contains in_ w then true else containsAnyLoop in_ list

/-- The function `containsAny`. -/
def containsAny (lowerTable : Char → Char) (input : String) (list : List String) : Bool :=
  let in_ := ToLower lowerTable input
  containsAnyLoop in_ list

/-- The word list of the first test of `Parse`. -/
def calendarWords : List String := ["meeting", "schedule", "calendar"]

/-- The word list of the second test of `Parse`. -/
def todoWords : List String := ["task", "todo", "remind"]

/-- The error `errors.New("could not parse intent")`, the spec's
`NoIntentMatched`. -/
def NoIntentMatched : GoError := ⟨"could not parse intent"⟩

/-- The method `KeywordNLU.Parse`. `rnd` is the 16 bytes that `uuid.New()`
reads from the random source during this call (the read is taken to succeed;
`uuid.New` panics when it does not). -/
def Parse (lowerTable : Char → Char) (rnd : UUID) (input : String) :
    Except GoError AgentRequest :=
  if containsAny lowerTable input calendarWords then
    .ok { ID := (NewRandom rnd).String, Agent := "calendar", Action := "create_event",
          Payload := [("title", Value.str input)] }
  else if containsAny lowerTable input todoWords then
    .ok { ID := (NewRandom rnd).String, Agent := "todo", Action := "add_task",
          Payload := [("task", Value.str input)] }
  else .error NoIntentMatched

/-! ## `internal/agent/client` as seen from the orchestrator -/

/-- The struct `agentclient.AgentMessage`, as built by `RouteAndExecute`. -/
structure AgentMessage where
  ID : String
  Action : String
  Payload : Payload

/-- The struct `agentclient.AgentResponse`: a status flag and the response
mapping. -/
structure AgentResponse where
  Status : String
  Response : Payload

/-- The observable trace of one process: the texts handed to the parser and
the messages handed to transports, oldest first. `C` is the type of transport
handles (`*agentclient.AgentClient`). -/
structure World (C : Type) where
  nluCalls : List String
  agentCalls : List (C × AgentMessage)

/-- The behaviour of the workers behind the transports: the reply (or failure)
that the exchange of `msg` through client `c` produces after the exchanges
already made. -/
abbrev Transports (C : Type) :=
  List (C × AgentMessage) → C → AgentMessage → Except GoError AgentResponse

/-- Modelled from the spec: the method `AgentClient.Handle` of
`internal/agent/client`, whose source is not part of the sources at hand. One
invocation attempts exactly one exchange: it is recorded in the trace and
answered by the worker behaviour `net`. -/
def Handle {C : Type} (net : Transports C) (c : C) (msg : AgentMessage) (w : World C) :
    Except GoError AgentResponse × World C :=
  (net w.agentCalls c msg, { w with agentCalls := w.agentCalls ++ [(c, msg)] })

/-! ## `internal/orchestrator/orchestrator.go` -/

/-- The interface `nlu.NLU`: the answer of `Parse` to a text, given the texts
parsed before (a provider may draw fresh identifiers on every call). -/
abbrev NLU := List String → String → Except GoError AgentRequest

/-- The struct `Orchestrator` (the logger has no effect on results). -/
structure Orchestrator (C : Type) where
  nlu : NLU
  agents : GoMap C

/-- The function `NewOrchestrator`. -/
def NewOrchestrator {C : Type} (n : NLU) : Orchestrator C :=
  { nlu := n, agents := [] }

/-- The method `Orchestrator.RegisterAgent`. -/
def RegisterAgent {C : Type} (o : Orchestrator C) (name : String) (c : C) : Orchestrator C :=
  { o with agents := o.agents.assign name c }

/-- The method `Orchestrator.ParseInput`. -/
def ParseInput {C : Type} (o : Orchestrator C) (input : String) (w : World C) :
    Except GoError AgentRequest × World C :=
  let w1 : World C := { w with nluCalls := w.nluCalls ++ [input] }
  match o.nlu w.nluCalls input with
  | .error err => (.error err, w1)
  | .ok ar => (.ok ar, w1)

/-- The error `fmt.Errorf("agent %s not registered", name)`, the spec's
`AgentNotRegistered`. -/
def AgentNotRegistered (name : String) : GoError :=
  ⟨"agent " ++ name ++ " not registered"⟩

/-- The method `Orchestrator.RouteAndExecute`. -/
def RouteAndExecute {C : Type} (net : Transports C) (o : Orchestrator C) (ar : AgentRequest)
    (w : World C) : Except GoError Payload × World C :=
  match o.agents.index ar.Agent with
  | none => (.error (AgentNotRegistered ar.Agent), w)
  | some c =>
    let msg : AgentMessage := { ID := ar.ID, Action := ar.Action, Payload := ar.Payload }
    match Handle net c msg w with
    | (.error err, w1) => (.error err, w1)
    | (.ok res, w1) => (.ok res.Response, w1)

/-! ## `cmd/orchestrator/main.go` -/

/-- The struct `QueryRequest`. -/
structure QueryRequest where
  Input : String

/-- The state of an `http.ResponseWriter`: headers set, the status line once
written, and the body written so far. -/
structure ResponseWriter where
  header : List (String × String)
  status : Option Nat
  body : String
  deriving DecidableEq, Repr

/-- A response writer nothing was written to. -/
def ResponseWriter.fresh : ResponseWriter := { header := [], status := none, body := "" }

/-- The method `WriteHeader`: the first status written stands. -/
def ResponseWriter.WriteHeader (w : ResponseWriter) (code : Nat) : ResponseWriter :=
  match w.status with
  | none => { w with status := some code }
  | some _ => w

/-- The method `Write`: writes `200` first when no status was written. -/
def ResponseWriter.Write (w : ResponseWriter) (b : String) : ResponseWriter :=
  let w1 := w.WriteHeader 200
  { w1 with body := w1.body ++ b }

/-- The call `w.Header().Set(k, v)`. -/
def ResponseWriter.HeaderSet (w : ResponseWriter) (k v : String) : ResponseWriter :=
  { w with header := (k, v) :: w.header.filter (fun e => e.1 != k) }

/-- The status the client receives: the one written, `200` otherwise. -/
def ResponseWriter.code (w : ResponseWriter) : Nat := w.status.getD 200

/-- The handler registered for `/v1/query`. `decode` is
`json.NewDecoder(r.Body).Decode(&q)` on the request body and `encode` the text
`json.NewEncoder(w).Encode(res)` writes. -/
def queryHandler {C : Type} (decode : String → Except GoError QueryRequest)
    (encode : Payload → String) (net : Transports C) (orch : Orchestrator C)
    (method body : String) (world : World C) : ResponseWriter × World C :=
  let w := ResponseWriter.fresh
  if method != "POST" then
    (w.WriteHeader 405, world)
  else
    match decode body with
    | .error _ => ((w.WriteHeader 400).Write "invalid JSON", world)
    | .ok q =>
      match ParseInput orch q.Input world with
      | (.error err, world1) => ((w.WriteHeader 400).Write err.msg, world1)
      | (.ok ar, world1) =>
        match RouteAndExecute net orch ar world1 with
        | (.error err, world2) => ((w.WriteHeader 500).Write err.msg, world2)
        | (.ok res, world2) =>
          ((w.HeaderSet "Content-Type" "application/json").Write (encode res), world2)

/-! ## Vocabulary of the claims -/

/-- The text contains the word `w` in some letter case: a contiguous piece
`u` of the text has `w` as its lower-case form, rune by rune. -/
def ContainsAnyCase (lowerTable : Char → Char) (text w : String) : Prop :=
  ∃ u : List Char, u <:+: text.data ∧ u.map (unicodeToLower lowerTable) = w.data

/-! ## Sample inputs -/

/-- A draw of sixteen zero bytes. -/
def zeroDraw : UUID := ⟨List.replicate 16 0, by decide⟩

/-- A draw that already carries the version and variant bits. -/
def markedDraw : UUID :=
  ⟨[0, 0, 0, 0, 0, 0, 0x40, 0, 0x80, 0, 0, 0, 0, 0, 0, 0], by decide⟩

/-- A draw whose first byte is one and whose other bytes are zero. -/
def oneDraw : UUID :=
  ⟨[1, 0, 0, 0, 0, 0, 0, 0, 0, 0, 0, 0, 0, 0, 0, 0], by decide⟩

/-- Two entries of the Unicode lower-case table: U+0130 (capital I with dot
above) and U+212A (Kelvin sign) have the ASCII letters i and k as lower case. -/
def sampleLowerTable (r : Char) : Char :=
  if r.toNat = 0x130 then 'i' else if r.toNat = 0x212A then 'k' else r

/-- A transport behaviour that echoes the payload of the message it receives,
with status "ok". Handles are base URLs. -/
def echoNet : Transports String :=
  fun _ _ msg => .ok { Status := "ok", Response := msg.Payload }

/-- A transport behaviour that echoes the payload but reports status "error". -/
def echoErrNet : Transports String :=
  fun _ _ msg => .ok { Status := "error", Response := msg.Payload }

/-- A transport behaviour whose exchanges all fail. -/
def downNet : Transports String :=
  fun _ _ _ => .error ⟨"connection refused"⟩

/-- The orchestrator as `main` composes it: the keyword parser, and the
calendar and todo clients registered under their names. -/
def mainOrch : Orchestrator String :=
  RegisterAgent
    (RegisterAgent (NewOrchestrator (fun _ input => Parse id zeroDraw input))
      "calendar" "http://localhost:8081")
    "todo" "http://localhost:8082"

/-- An orchestrator with the keyword parser and only the todo client. -/
def todoOnlyOrch : Orchestrator String :=
  RegisterAgent (NewOrchestrator (fun _ input => Parse id zeroDraw input))
    "todo" "http://localhost:8082"

/-- The trace of a process that has made no call yet. -/
def World.start {C : Type} : World C := { nluCalls := [], agentCalls := [] }

/-- A decoder stub: the body is taken as the input text. -/
def plainDecode : String → Except GoError QueryRequest :=
  fun body => .ok { Input := body }

/-- An encoder stub: the `title` entry of a mapping, when it is a string. -/
def titleEncode : Payload → String :=
  fun res => match res.index "title" with
    | some (Value.str t) => t
    | _ => ""

/-- A calendar request. -/
def sampleRequest : AgentRequest :=
  { ID := "r-1", Agent := "calendar", Action := "create_event",
    Payload := [("title", Value.str "standup")] }

/-! ## Lemmas on the library functions -/

theorem containsChars_iff (s sub : List Char) : containsChars s sub = true ↔ sub <:+: s := by
  induction s with
  | nil =>
    cases sub <;> simp [containsChars, List.isPrefixOf]
  | cons c cs ih =>
    rw [containsChars, Bool.or_eq_true, ih, List.infix_cons_iff, List.isPrefixOf_iff_prefix]

theorem Contains_iff (s w : String) : Contains s w = true ↔ w.data <:+: s.data :=
  containsChars_iff s.data w.data

theorem unicodeToLower_ascii (lowerTable : Char → Char) (c : Char) (h : c.toNat < 0x80) :
    unicodeToLower lowerTable c = asciiLowerByte c := by
  have h1 : c.toNat ≤ 0x7F := by omega
  simp [unicodeToLower, asciiLowerByte, h1]

theorem asciiLowerByte_of_not_upper (c : Char) (h : ¬ ('A' ≤ c ∧ c ≤ 'Z')) :
    asciiLowerByte c = c := by
  simp only [asciiLowerByte, if_neg h]

theorem ToLower_data (lowerTable : Char → Char) (s : String) :
    (ToLower lowerTable s).data = s.data.map (unicodeToLower lowerTable) := by
  unfold ToLower
  simp only
  split
  · rename_i hascii
    have hall : ∀ c ∈ s.data, c.toNat < 0x80 := by
      intro c hc
      have := List.all_eq_true.mp hascii c hc
      simpa using this
    have hmap : s.data.map (unicodeToLower lowerTable) = s.data.map asciiLowerByte :=
      List.map_congr_left (fun c hc => unicodeToLower_ascii lowerTable c (hall c hc))
    split
    · rename_i hup
      rw [hmap]
      have hno : ∀ c ∈ s.data, ¬ ('A' ≤ c ∧ c ≤ 'Z') := by
        intro c hc hcu
        have hany : s.data.any (fun c => decide ('A' ≤ c ∧ c ≤ 'Z')) = true :=
          List.any_eq_true.mpr ⟨c, hc, by simpa using hcu⟩
        rw [hany] at hup
        exact absurd hup (by decide)
      have : s.data.map asciiLowerByte = s.data.map id :=
        List.map_congr_left (fun c hc => asciiLowerByte_of_not_upper c (hno c hc))
      rw [this, List.map_id]
    · rw [hmap]
  · rfl

theorem infix_map_iff {α β : Type} (f : α → β) (sub : List β) (s : List α) :
    sub <:+: s.map f ↔ ∃ u, u <:+: s ∧ u.map f = sub := by
  constructor
  · rintro ⟨a, b, h⟩
    obtain ⟨l1, l2, hs, h1, h2⟩ := List.map_eq_append_iff.mp h.symm
    obtain ⟨l3, l4, hs1, h3, h4⟩ := List.map_eq_append_iff.mp h1
    exact ⟨l4, ⟨l3, l2, by rw [hs, hs1]⟩, h4⟩
  · rintro ⟨u, ⟨a, b, h⟩, hu⟩
    refine ⟨a.map f, b.map f, ?_⟩
    rw [← h, ← hu]
    simp

theorem containsAnyCase_iff (lowerTable : Char → Char) (text w : String) :
    ContainsAnyCase lowerTable text w ↔ Contains (ToLower lowerTable text) w = true := by
  rw [Contains_iff, ToLower_data, infix_map_iff]
  rfl

theorem containsAnyLoop_iff (s : String) (list : List String) :
    containsAnyLoop s list = true ↔ ∃ w ∈ list, Contains s w = true := by
  induction list with
  | nil => simp [containsAnyLoop]
  | cons w ws ih =>
    rw [containsAnyLoop]
    by_cases h : Contains s w = true
    · simp [h]
    · simp [h, ih]

theorem containsAny_iff (lowerTable : Char → Char) (text : String) (list : List String) :
    containsAny lowerTable text list = true ↔
      ∃ w ∈ list, ContainsAnyCase lowerTable text w := by
  unfold containsAny
  simp only [containsAnyLoop_iff, containsAnyCase_iff]

theorem ToLower_of_ascii (lowerTable : Char → Char) (s : String)
    (h : s.data.all (fun c => decide (c.toNat < 0x80)) = true) :
    ToLower lowerTable s = ToLower id s := by
  simp only [ToLower, h, if_true]

theorem containsAny_of_ascii (lowerTable : Char → Char) (s : String) (list : List String)
    (h : s.data.all (fun c => decide (c.toNat < 0x80)) = true) :
    containsAny lowerTable s list = containsAny id s list := by
  simp only [containsAny, ToLower_of_ascii lowerTable s h]

/-- The plain letter-case variants of a word are covered by `ContainsAnyCase`,
whatever the Unicode table: a piece of the text made of ASCII runes whose
letters, put in lower case, spell the word. -/
theorem containsAnyCase_of_ascii_variant (lowerTable : Char → Char) (text w : String)
    (u : List Char) (hu : u <:+: text.data) (hascii : ∀ c ∈ u, c.toNat < 0x80)
    (hcase : u.map asciiLowerByte = w.data) : ContainsAnyCase lowerTable text w := by
  refine ⟨u, hu, ?_⟩
  rw [← hcase]
  exact List.map_congr_left (fun c hc => unicodeToLower_ascii lowerTable c (hascii c hc))

/-! ## The keyword parser -/

theorem Parse_of_calendar (lowerTable : Char → Char) (rnd : UUID) (text : String)
    (h : containsAny lowerTable text calendarWords = true) :
    Parse lowerTable rnd text = .ok
      { ID := (NewRandom rnd).String, Agent := "calendar", Action := "create_event",
        Payload := [("title", Value.str text)] } := by
  simp only [Parse, h, if_true]

theorem Parse_of_todo (lowerTable : Char → Char) (rnd : UUID) (text : String)
    (hc : containsAny lowerTable text calendarWords = false)
    (h : containsAny lowerTable text todoWords = true) :
    Parse lowerTable rnd text = .ok
      { ID := (NewRandom rnd).String, Agent := "todo", Action := "add_task",
        Payload := [("task", Value.str text)] } := by
  simp [Parse, h, hc]

theorem Parse_of_neither (lowerTable : Char → Char) (rnd : UUID) (text : String)
    (hc : containsAny lowerTable text calendarWords = false)
    (h : containsAny lowerTable text todoWords = false) :
    Parse lowerTable rnd text = .error NoIntentMatched := by
  simp [Parse, h, hc]

theorem containsAny_eq_false_iff (lowerTable : Char → Char) (text : String)
    (list : List String) :
    containsAny lowerTable text list = false ↔
      ∀ w ∈ list, ¬ ContainsAnyCase lowerTable text w := by
  rw [← Bool.not_eq_true, containsAny_iff]
  simp

/-- C1: a text that contains one of the calendar words "meeting", "schedule",
"calendar" in some letter case is parsed successfully into a request for agent
"calendar" with action "create_event" whose payload holds the text itself,
unchanged, under "title"; nothing is assumed about todo words, so the result is
the same when the text also contains one of them. -/
theorem Parse_calendar (lowerTable : Char → Char) (rnd : UUID) (text w : String)
    (hw : w ∈ calendarWords) (h : ContainsAnyCase lowerTable text w) :
    ∃ req : AgentRequest, Parse lowerTable rnd text = .ok req ∧
      req.Agent = "calendar" ∧ req.Action = "create_event" ∧
      req.Payload = [("title", Value.str text)] ∧
      req.Payload.index "title" = some (Value.str text) := by
  refine ⟨_, Parse_of_calendar lowerTable rnd text
    ((containsAny_iff lowerTable text calendarWords).mpr ⟨w, hw, h⟩), rfl, rfl, rfl, ?_⟩
  simp [GoMap.index, List.lookup]

/-- Witness of C1: "Remind me of the MEETING" contains both a todo word and,
in upper case, a calendar word; it is routed to the calendar agent with the
text as title. -/
theorem Parse_calendar_witness :
    "meeting" ∈ calendarWords ∧
    ContainsAnyCase id "Remind me of the MEETING" "meeting" ∧
    ContainsAnyCase id "Remind me of the MEETING" "remind" ∧
    ∃ req : AgentRequest, Parse id zeroDraw "Remind me of the MEETING" = .ok req ∧
      req.Agent = "calendar" ∧ req.Action = "create_event" ∧
      req.Payload = [("title", Value.str "Remind me of the MEETING")] ∧
      req.Payload.index "title" = some (Value.str "Remind me of the MEETING") :=
  ⟨by decide,
   (containsAnyCase_iff id _ _).mpr (by decide),
   (containsAnyCase_iff id _ _).mpr (by decide),
   Parse_calendar id zeroDraw "Remind me of the MEETING" "meeting" (by decide)
     ((containsAnyCase_iff id _ _).mpr (by decide))⟩

/-- C2: a text that contains one of the todo words "task", "todo", "remind" in
some letter case and none of the calendar words "meeting", "schedule",
"calendar" in any letter case is parsed successfully into a request for agent
"todo" with action "add_task". Letter case is the one of `unicode.ToLower`, for
both word lists. -/
theorem Parse_todo (lowerTable : Char → Char) (rnd : UUID) (text w : String)
    (hw : w ∈ todoWords) (h : ContainsAnyCase lowerTable text w)
    (hnone : ∀ c ∈ calendarWords, ¬ ContainsAnyCase lowerTable text c) :
    ∃ req : AgentRequest, Parse lowerTable rnd text = .ok req ∧
      req.Agent = "todo" ∧ req.Action = "add_task" := by
  exact ⟨_, Parse_of_todo lowerTable rnd text
    ((containsAny_eq_false_iff lowerTable text calendarWords).mpr hnone)
    ((containsAny_iff lowerTable text todoWords).mpr ⟨w, hw, h⟩), rfl, rfl⟩

/-- Witness of C2: "Add a TODO: buy milk". -/
theorem Parse_todo_witness :
    "todo" ∈ todoWords ∧
    ContainsAnyCase id "Add a TODO: buy milk" "todo" ∧
    (∀ c ∈ calendarWords, ¬ ContainsAnyCase id "Add a TODO: buy milk" c) ∧
    ∃ req : AgentRequest, Parse id zeroDraw "Add a TODO: buy milk" = .ok req ∧
      req.Agent = "todo" ∧ req.Action = "add_task" :=
  have hnone : ∀ c ∈ calendarWords, ¬ ContainsAnyCase id "Add a TODO: buy milk" c :=
    (containsAny_eq_false_iff id _ calendarWords).mp (by decide)
  ⟨by decide, (containsAnyCase_iff id _ _).mpr (by decide), hnone,
   Parse_todo id zeroDraw "Add a TODO: buy milk" "todo" (by decide)
     ((containsAnyCase_iff id _ _).mpr (by decide)) hnone⟩

/-- C3: `Parse` fails with `NoIntentMatched` exactly when the lower-cased text
contains none of the six words "meeting", "schedule", "calendar", "task",
"todo", "remind" as a substring; it never fails with another error; and it
fails on the empty text and on "hello there". -/
theorem Parse_fails_iff (lowerTable : Char → Char) (rnd : UUID) (text : String) :
    (Parse lowerTable rnd text = .error NoIntentMatched ↔
      ∀ w ∈ ["meeting", "schedule", "calendar", "task", "todo", "remind"],
        ¬ (String.data w <:+: (ToLower lowerTable text).data)) ∧
    ((∀ req, Parse lowerTable rnd text ≠ .ok req) ↔
      Parse lowerTable rnd text = .error NoIntentMatched) ∧
    Parse lowerTable rnd "" = .error NoIntentMatched ∧
    Parse lowerTable rnd "hello there" = .error NoIntentMatched := by
  have key : ∀ list : List String, containsAny lowerTable text list = false ↔
      ∀ w ∈ list, ¬ (String.data w <:+: (ToLower lowerTable text).data) := by
    intro list
    rw [containsAny_eq_false_iff]
    simp only [containsAnyCase_iff, Contains_iff]
  refine ⟨?_, ?_, ?_, ?_⟩
  · constructor
    · intro hfail w hw
      have hw2 : w ∈ calendarWords ∨ w ∈ todoWords := by
        simpa [calendarWords, todoWords, or_assoc] using hw
      cases hc : containsAny lowerTable text calendarWords with
      | true => rw [Parse_of_calendar lowerTable rnd text hc] at hfail; cases hfail
      | false =>
        cases ht : containsAny lowerTable text todoWords with
        | true => rw [Parse_of_todo lowerTable rnd text hc ht] at hfail; cases hfail
        | false =>
          rcases hw2 with hw2 | hw2
          · exact (key calendarWords).mp hc w hw2
          · exact (key todoWords).mp ht w hw2
    · intro hall
      apply Parse_of_neither
      · exact (key calendarWords).mpr (fun w hw => hall w (by
          simp only [calendarWords] at hw; simp only [List.mem_cons] at hw ⊢; tauto))
      · exact (key todoWords).mpr (fun w hw => hall w (by
          simp only [todoWords] at hw; simp only [List.mem_cons] at hw ⊢; tauto))
  · constructor
    · intro hno
      cases hc : containsAny lowerTable text calendarWords with
      | true => exact absurd (Parse_of_calendar lowerTable rnd text hc) (hno _)
      | false =>
        cases ht : containsAny lowerTable text todoWords with
        | true => exact absurd (Parse_of_todo lowerTable rnd text hc ht) (hno _)
        | false => exact Parse_of_neither lowerTable rnd text hc ht
    · intro hfail req hreq
      rw [hfail] at hreq
      cases hreq
  · exact Parse_of_neither lowerTable rnd ""
      ((containsAny_of_ascii lowerTable "" _ (by decide)).trans (by decide))
      ((containsAny_of_ascii lowerTable "" _ (by decide)).trans (by decide))
  · exact Parse_of_neither lowerTable rnd "hello there"
      ((containsAny_of_ascii lowerTable "hello there" _ (by decide)).trans (by decide))
      ((containsAny_of_ascii lowerTable "hello there" _ (by decide)).trans (by decide))

/-! ## The registry -/

theorem index_assign_self {β : Type} (m : GoMap β) (k : String) (v : β) :
    (m.assign k v).index k = some v := by
  simp [GoMap.assign, GoMap.index, List.lookup]

theorem lookup_filter_ne {β : Type} (m : GoMap β) (k other : String) (h : other ≠ k) :
    List.lookup other (m.filter (fun e => e.1 != k)) = List.lookup other m := by
  induction m with
  | nil => rfl
  | cons e es ih =>
    obtain ⟨a, b⟩ := e
    by_cases hak : a = k
    · subst hak
      have hne : (other == a) = false := by simpa using h
      simp [List.filter, List.lookup, hne, ih]
    · have hak2 : (a != k) = true := by simpa using hak
      simp only [List.filter, hak2, List.lookup, ih]

theorem index_assign_other {β : Type} (m : GoMap β) (k other : String) (v : β)
    (h : other ≠ k) : (m.assign k v).index other = m.index other := by
  have hne : (other == k) = false := by simpa using h
  simp only [GoMap.assign, GoMap.index, List.lookup, hne]
  exact lookup_filter_ne m k other h

theorem entries_assign_self {β : Type} (m : GoMap β) (k : String) (v : β) :
    (m.assign k v).entries k = 1 := by
  simp [GoMap.assign, GoMap.entries, List.filter_cons, List.filter_filter]

theorem entries_assign_other {β : Type} (m : GoMap β) (k other : String) (v : β)
    (h : other ≠ k) : (m.assign k v).entries other = m.entries other := by
  have hne : (k == other) = false := by simpa using (Ne.symm h)
  simp only [GoMap.assign, GoMap.entries, List.filter_cons, hne, List.filter_filter]
  congr 1
  apply List.filter_congr
  intro e _
  by_cases he : e.1 = other
  · simp [he, h]
  · simp [he]

/-! ## Routing -/

theorem RouteAndExecute_none {C : Type} (net : Transports C) (o : Orchestrator C)
    (ar : AgentRequest) (w : World C) (h : o.agents.index ar.Agent = none) :
    RouteAndExecute net o ar w = (.error (AgentNotRegistered ar.Agent), w) := by
  simp only [RouteAndExecute, h]

theorem RouteAndExecute_some {C : Type} (net : Transports C) (o : Orchestrator C)
    (ar : AgentRequest) (w : World C) (c : C) (h : o.agents.index ar.Agent = some c) :
    RouteAndExecute net o ar w =
      ((net w.agentCalls c ⟨ar.ID, ar.Action, ar.Payload⟩).map (fun res => res.Response),
       { w with agentCalls := w.agentCalls ++ [(c, ⟨ar.ID, ar.Action, ar.Payload⟩)] }) := by
  simp only [RouteAndExecute, h, Handle]
  cases net w.agentCalls c ⟨ar.ID, ar.Action, ar.Payload⟩ <;> rfl

/-- C4: when the agent name of the request has no entry in the registry,
`RouteAndExecute` fails with `AgentNotRegistered` for that name, returns no
mapping, and leaves the trace as it was: no transport `Handle` is invoked. -/
theorem RouteAndExecute_unregistered {C : Type} (net : Transports C) (o : Orchestrator C)
    (ar : AgentRequest) (w : World C) (h : o.agents.index ar.Agent = none) :
    (RouteAndExecute net o ar w).1 = .error (AgentNotRegistered ar.Agent) ∧
    (∀ res, (RouteAndExecute net o ar w).1 ≠ .ok res) ∧
    (RouteAndExecute net o ar w).2 = w ∧
    (RouteAndExecute net o ar w).2.agentCalls.length = w.agentCalls.length := by
  rw [RouteAndExecute_none net o ar w h]
  refine ⟨rfl, ?_, rfl, rfl⟩
  intro res hres
  cases hres

/-- Witness of C4: a calendar request sent to an orchestrator that only knows
the todo agent. -/
theorem RouteAndExecute_unregistered_witness :
    todoOnlyOrch.agents.index sampleRequest.Agent = none ∧
    (RouteAndExecute echoNet todoOnlyOrch sampleRequest World.start).1 =
      .error ⟨"agent calendar not registered"⟩ ∧
    (RouteAndExecute echoNet todoOnlyOrch sampleRequest World.start).2.agentCalls.length = 0 :=
  have h : todoOnlyOrch.agents.index sampleRequest.Agent = none := by decide
  ⟨h, (RouteAndExecute_unregistered echoNet todoOnlyOrch sampleRequest World.start h).1,
   (RouteAndExecute_unregistered echoNet todoOnlyOrch sampleRequest World.start h).2.2.2⟩

/-- C5: when the agent name of the request is registered to transport `c`,
`RouteAndExecute` makes exactly one `Handle` call: the trace grows by the single
entry `(c, msg)` where `msg` carries the id, action and payload of the request
(and no agent name). If that exchange answers with a response, the result is
exactly its response mapping; if it fails, the result is that same failure. -/
theorem RouteAndExecute_registered {C : Type} (net : Transports C) (o : Orchestrator C)
    (ar : AgentRequest) (w : World C) (c : C) (h : o.agents.index ar.Agent = some c) :
    (RouteAndExecute net o ar w).2.agentCalls =
      w.agentCalls ++ [(c, { ID := ar.ID, Action := ar.Action, Payload := ar.Payload })] ∧
    (RouteAndExecute net o ar w).2.nluCalls = w.nluCalls ∧
    (∀ res, net w.agentCalls c ⟨ar.ID, ar.Action, ar.Payload⟩ = .ok res →
      (RouteAndExecute net o ar w).1 = .ok res.Response) ∧
    (∀ err, net w.agentCalls c ⟨ar.ID, ar.Action, ar.Payload⟩ = .error err →
      (RouteAndExecute net o ar w).1 = .error err) := by
  rw [RouteAndExecute_some net o ar w c h]
  refine ⟨rfl, rfl, ?_, ?_⟩
  · intro res hres
    simp only [hres]
    rfl
  · intro err herr
    simp only [herr]
    rfl

/-- Witness of C5: the calendar request on the orchestrator of `main`, with
workers that are down: one call, to the calendar client, and its failure is the
result. -/
theorem RouteAndExecute_registered_witness :
    mainOrch.agents.index sampleRequest.Agent = some "http://localhost:8081" ∧
    (RouteAndExecute downNet mainOrch sampleRequest World.start).2.agentCalls =
      [("http://localhost:8081",
        { ID := "r-1", Action := "create_event",
          Payload := [("title", Value.str "standup")] })] ∧
    (RouteAndExecute downNet mainOrch sampleRequest World.start).1 =
      .error ⟨"connection refused"⟩ :=
  have h : mainOrch.agents.index sampleRequest.Agent = some "http://localhost:8081" := by
    decide
  ⟨h, (RouteAndExecute_registered downNet mainOrch sampleRequest World.start _ h).1,
   (RouteAndExecute_registered downNet mainOrch sampleRequest World.start _ h).2.2.2
     ⟨"connection refused"⟩ rfl⟩

/-- C6: round trip. When the agent of the request is registered to a transport
that answers every message with that message's payload as its response,
`RouteAndExecute` succeeds and returns the payload of the request. -/
theorem RouteAndExecute_echo {C : Type} (net : Transports C) (o : Orchestrator C)
    (ar : AgentRequest) (w : World C) (c : C) (h : o.agents.index ar.Agent = some c)
    (hecho : ∀ calls msg, ∃ status,
      net calls c msg = .ok { Status := status, Response := msg.Payload }) :
    (RouteAndExecute net o ar w).1 = .ok ar.Payload := by
  obtain ⟨status, hs⟩ := hecho w.agentCalls ⟨ar.ID, ar.Action, ar.Payload⟩
  rw [RouteAndExecute_some net o ar w c h, hs]
  rfl

/-- Witness of C6: the calendar request through an echoing calendar client. -/
theorem RouteAndExecute_echo_witness :
    mainOrch.agents.index sampleRequest.Agent = some "http://localhost:8081" ∧
    (RouteAndExecute echoNet mainOrch sampleRequest World.start).1 =
      .ok [("title", Value.str "standup")] :=
  have h : mainOrch.agents.index sampleRequest.Agent = some "http://localhost:8081" := by
    decide
  ⟨h, RouteAndExecute_echo echoNet mainOrch sampleRequest World.start _ h
    (fun _ _ => ⟨"ok", rfl⟩)⟩

/-- C7: after `RegisterAgent(name, c)` the registry maps `name` to `c` and holds
exactly one entry for `name`, whatever it held before; every other name is
mapped as before, with as many entries as before. After `RegisterAgent(name,
c1)` and then `RegisterAgent(name, c2)`, a request for `name` makes its single
`Handle` call on `c2`. -/
theorem RegisterAgent_last_write_wins {C : Type} (net : Transports C) (o : Orchestrator C)
    (name : String) (c c1 c2 : C) (ar : AgentRequest) (w : World C) :
    (RegisterAgent o name c).agents.index name = some c ∧
    (RegisterAgent o name c).agents.entries name = 1 ∧
    (∀ other, other ≠ name →
      (RegisterAgent o name c).agents.index other = o.agents.index other ∧
      (RegisterAgent o name c).agents.entries other = o.agents.entries other) ∧
    (RegisterAgent o name c).nlu = o.nlu ∧
    (RouteAndExecute net (RegisterAgent (RegisterAgent o name c1) name c2)
        { ar with Agent := name } w).2.agentCalls =
      w.agentCalls ++ [(c2, { ID := ar.ID, Action := ar.Action, Payload := ar.Payload })] ∧
    (RouteAndExecute net (RegisterAgent (RegisterAgent o name c1) name c2)
        { ar with Agent := name } w).1 =
      (net w.agentCalls c2 ⟨ar.ID, ar.Action, ar.Payload⟩).map (fun res => res.Response) := by
  refine ⟨index_assign_self _ _ _, entries_assign_self _ _ _, ?_, rfl, ?_, ?_⟩
  · intro other hne
    exact ⟨index_assign_other _ _ _ _ hne, entries_assign_other _ _ _ _ hne⟩
  · rw [RouteAndExecute_some net _ _ w c2 (index_assign_self _ _ _)]
  · rw [RouteAndExecute_some net _ _ w c2 (index_assign_self _ _ _)]

/-- C10: `RouteAndExecute` does not look at the status of the reply. For a
registered request and two worker behaviours whose replies to the message carry
the same response mapping, whatever their status flags, both runs succeed with
that mapping. -/
theorem RouteAndExecute_ignores_status {C : Type} (net1 net2 : Transports C)
    (o : Orchestrator C) (ar : AgentRequest) (w : World C) (c : C) (r1 r2 : AgentResponse)
    (h : o.agents.index ar.Agent = some c)
    (h1 : net1 w.agentCalls c ⟨ar.ID, ar.Action, ar.Payload⟩ = .ok r1)
    (h2 : net2 w.agentCalls c ⟨ar.ID, ar.Action, ar.Payload⟩ = .ok r2)
    (hresp : r1.Response = r2.Response) :
    (RouteAndExecute net1 o ar w).1 = .ok r1.Response ∧
    (RouteAndExecute net2 o ar w).1 = (RouteAndExecute net1 o ar w).1 := by
  rw [RouteAndExecute_some net1 o ar w c h, RouteAndExecute_some net2 o ar w c h, h1, h2]
  simp only [Except.map, hresp, and_self]

/-- Witness of C10: a reply with status "error" that `Handle` returns without
an error gives the same successful result as the reply with status "ok". -/
theorem RouteAndExecute_ignores_status_witness :
    (RouteAndExecute echoNet mainOrch sampleRequest World.start).1 =
      .ok [("title", Value.str "standup")] ∧
    (RouteAndExecute echoErrNet mainOrch sampleRequest World.start).1 =
      (RouteAndExecute echoNet mainOrch sampleRequest World.start).1 :=
  RouteAndExecute_ignores_status echoNet echoErrNet mainOrch sampleRequest World.start
    "http://localhost:8081" ⟨"ok", sampleRequest.Payload⟩ ⟨"error", sampleRequest.Payload⟩
    (by decide) rfl rfl rfl

/-! ## The query handler -/

theorem ParseInput_eq {C : Type} (o : Orchestrator C) (input : String) (w : World C) :
    ParseInput o input w =
      (o.nlu w.nluCalls input, { w with nluCalls := w.nluCalls ++ [input] }) := by
  unfold ParseInput
  cases o.nlu w.nluCalls input <;> rfl

theorem RouteAndExecute_nluCalls {C : Type} (net : Transports C) (o : Orchestrator C)
    (ar : AgentRequest) (w : World C) :
    (RouteAndExecute net o ar w).2.nluCalls = w.nluCalls := by
  cases h : o.agents.index ar.Agent with
  | none => rw [RouteAndExecute_none net o ar w h]
  | some c => rw [RouteAndExecute_some net o ar w c h]

theorem queryHandler_not_post {C : Type} (decode : String → Except GoError QueryRequest)
    (encode : Payload → String) (net : Transports C) (orch : Orchestrator C)
    (method body : String) (world : World C) (h : method ≠ "POST") :
    queryHandler decode encode net orch method body world =
      ({ header := [], status := some 405, body := "" }, world) := by
  have hm : (method != "POST") = true := by simpa using h
  simp only [queryHandler, hm, if_true]
  rfl

theorem queryHandler_post {C : Type} (decode : String → Except GoError QueryRequest)
    (encode : Payload → String) (net : Transports C) (orch : Orchestrator C)
    (body : String) (world : World C) (q : QueryRequest) (hq : decode body = .ok q) :
    queryHandler decode encode net orch "POST" body world =
      match ParseInput orch q.Input world with
      | (.error err, world1) => ({ header := [], status := some 400, body := err.msg }, world1)
      | (.ok ar, world1) =>
        match RouteAndExecute net orch ar world1 with
        | (.error err, world2) =>
          ({ header := [], status := some 500, body := err.msg }, world2)
        | (.ok res, world2) =>
          ({ header := [("Content-Type", "application/json")], status := some 200,
             body := encode res }, world2) := by
  have hm : (("POST" : String) != "POST") = false := by decide
  simp only [queryHandler, hm, hq]
  rw [ParseInput_eq]
  cases orch.nlu world.nluCalls q.Input with
  | error err =>
    simp [ResponseWriter.fresh, ResponseWriter.WriteHeader, ResponseWriter.Write]
  | ok ar =>
    simp only []
    rcases hr : RouteAndExecute net orch ar
      { world with nluCalls := world.nluCalls ++ [q.Input] } with ⟨r, world2⟩
    cases r with
    | error err =>
      simp [ResponseWriter.fresh, ResponseWriter.WriteHeader, ResponseWriter.Write]
    | ok res =>
      simp [ResponseWriter.fresh, ResponseWriter.WriteHeader, ResponseWriter.Write,
        ResponseWriter.HeaderSet]

/-- C9: the `/v1/query` handler answers 405, with nothing parsed and nothing
routed, to every method other than POST. To a POST whose body decodes to a
query it answers 400 with the parser's message when `ParseInput` fails, and then
no transport call is made; 500 with the error's message when `ParseInput`
succeeds and `RouteAndExecute` fails; and 200 with the JSON encoding of the
mapping `RouteAndExecute` returns when both succeed. -/
theorem queryHandler_answers {C : Type} (decode : String → Except GoError QueryRequest)
    (encode : Payload → String) (net : Transports C) (orch : Orchestrator C)
    (method body : String) (world : World C) :
    (method ≠ "POST" →
      (queryHandler decode encode net orch method body world).1.code = 405 ∧
      (queryHandler decode encode net orch method body world).1.body = "" ∧
      (queryHandler decode encode net orch method body world).2 = world) ∧
    (∀ q err, method = "POST" → decode body = .ok q →
      (ParseInput orch q.Input world).1 = .error err →
      (queryHandler decode encode net orch method body world).1.code = 400 ∧
      (queryHandler decode encode net orch method body world).1.body = err.msg ∧
      (queryHandler decode encode net orch method body world).2.agentCalls =
        world.agentCalls) ∧
    (∀ q ar err, method = "POST" → decode body = .ok q →
      (ParseInput orch q.Input world).1 = .ok ar →
      (RouteAndExecute net orch ar (ParseInput orch q.Input world).2).1 = .error err →
      (queryHandler decode encode net orch method body world).1.code = 500 ∧
      (queryHandler decode encode net orch method body world).1.body = err.msg) ∧
    (∀ q ar res, method = "POST" → decode body = .ok q →
      (ParseInput orch q.Input world).1 = .ok ar →
      (RouteAndExecute net orch ar (ParseInput orch q.Input world).2).1 = .ok res →
      (queryHandler decode encode net orch method body world).1.code = 200 ∧
      (queryHandler decode encode net orch method body world).1.body = encode res ∧
      (queryHandler decode encode net orch method body world).1.header =
        [("Content-Type", "application/json")]) := by
  refine ⟨?_, ?_, ?_, ?_⟩
  · intro h
    rw [queryHandler_not_post decode encode net orch method body world h]
    exact ⟨rfl, rfl, rfl⟩
  · intro q err hm hq hp
    subst hm
    rw [queryHandler_post decode encode net orch body world q hq]
    rw [ParseInput_eq] at hp ⊢
    simp only at hp
    simp [hp, ResponseWriter.code]
  · intro q ar err hm hq hp hr
    subst hm
    rw [queryHandler_post decode encode net orch body world q hq]
    rw [ParseInput_eq] at hp hr ⊢
    simp only at hp hr
    simp only [hp]
    rcases hr2 : RouteAndExecute net orch ar
      { world with nluCalls := world.nluCalls ++ [q.Input] } with ⟨r, world2⟩
    rw [hr2] at hr
    simp only at hr
    subst hr
    exact ⟨rfl, rfl⟩
  · intro q ar res hm hq hp hr
    subst hm
    rw [queryHandler_post decode encode net orch body world q hq]
    rw [ParseInput_eq] at hp hr ⊢
    simp only at hp hr
    simp only [hp]
    rcases hr2 : RouteAndExecute net orch ar
      { world with nluCalls := world.nluCalls ++ [q.Input] } with ⟨r, world2⟩
    rw [hr2] at hr
    simp only at hr
    subst hr
    exact ⟨rfl, rfl, rfl⟩

/-- Witness of C9 on the orchestrator of `main` with echoing workers: a GET
is answered 405 and leaves the trace empty; "hello there" is answered 400 with
the parser's message and no transport call; "schedule a meeting with bob" is
answered 200 with the encoding of the mapping the calendar worker returned. -/
theorem queryHandler_answers_witness :
    ((queryHandler plainDecode titleEncode echoNet mainOrch "GET" "hello there"
        World.start).1.code = 405 ∧
      (queryHandler plainDecode titleEncode echoNet mainOrch "GET" "hello there"
        World.start).1.body = "" ∧
      (queryHandler plainDecode titleEncode echoNet mainOrch "GET" "hello there"
        World.start).2 = World.start) ∧
    ((queryHandler plainDecode titleEncode echoNet mainOrch "POST" "hello there"
        World.start).1.code = 400 ∧
      (queryHandler plainDecode titleEncode echoNet mainOrch "POST" "hello there"
        World.start).1.body = "could not parse intent" ∧
      (queryHandler plainDecode titleEncode echoNet mainOrch "POST" "hello there"
        World.start).2.agentCalls = []) ∧
    ((queryHandler plainDecode titleEncode echoNet mainOrch "POST"
        "schedule a meeting with bob" World.start).1.code = 200 ∧
      (queryHandler plainDecode titleEncode echoNet mainOrch "POST"
        "schedule a meeting with bob" World.start).1.body = "schedule a meeting with bob" ∧
      (queryHandler plainDecode titleEncode echoNet mainOrch "POST"
        "schedule a meeting with bob" World.start).1.header =
        [("Content-Type", "application/json")]) :=
  ⟨(queryHandler_answers plainDecode titleEncode echoNet mainOrch "GET" "hello there"
      World.start).1 (by decide),
   (queryHandler_answers plainDecode titleEncode echoNet mainOrch "POST" "hello there"
      World.start).2.1 ⟨"hello there"⟩ NoIntentMatched rfl rfl rfl,
   (queryHandler_answers plainDecode titleEncode echoNet mainOrch "POST"
      "schedule a meeting with bob" World.start).2.2.2 ⟨"schedule a meeting with bob"⟩
      { ID := "00000000-0000-4000-8000-000000000000", Agent := "calendar",
        Action := "create_event",
        Payload := [("title", Value.str "schedule a meeting with bob")] }
      [("title", Value.str "schedule a meeting with bob")] rfl rfl rfl rfl⟩

/-! ## Request identifiers -/

theorem hexDigit_inj : ∀ a b : Fin 16, hexDigit a.val = hexDigit b.val → a = b := by
  decide

theorem hexByte_inj (a b : Fin 256) (h1 : hexDigit (a.val / 16) = hexDigit (b.val / 16))
    (h2 : hexDigit (a.val % 16) = hexDigit (b.val % 16)) : a = b := by
  have ha := a.isLt
  have hb := b.isLt
  have e1 := hexDigit_inj ⟨a.val / 16, by omega⟩ ⟨b.val / 16, by omega⟩ h1
  have e2 := hexDigit_inj ⟨a.val % 16, by omega⟩ ⟨b.val % 16, by omega⟩ h2
  have e3 : a.val / 16 = b.val / 16 := congrArg Fin.val e1
  have e4 : a.val % 16 = b.val % 16 := congrArg Fin.val e2
  apply Fin.ext
  omega

theorem hexEncode_inj : ∀ l1 l2 : List (Fin 256), hexEncode l1 = hexEncode l2 → l1 = l2
  | [], [], _ => rfl
  | [], _ :: _, h => by simp [hexEncode] at h
  | _ :: _, [], h => by simp [hexEncode] at h
  | a :: l1, b :: l2, h => by
    simp only [hexEncode, List.cons.injEq] at h
    rw [hexByte_inj a b h.1 h.2.1, hexEncode_inj l1 l2 h.2.2]

theorem hexEncode_length (l : List (Fin 256)) : (hexEncode l).length = 2 * l.length := by
  induction l with
  | nil => rfl
  | cons b bs ih => simp only [hexEncode, List.length_cons, ih]; omega

theorem drop_eq_of_take_drop {α : Type} (l1 l2 : List α) (n k : Nat)
    (ht : (l1.drop n).take k = (l2.drop n).take k)
    (hd : l1.drop (n + k) = l2.drop (n + k)) : l1.drop n = l2.drop n := by
  rw [← List.take_append_drop k (l1.drop n), ← List.take_append_drop k (l2.drop n), ht]
  simp only [List.drop_drop]
  rw [hd]

theorem UUID_String_inj (u v : UUID) (h : u.String = v.String) : u = v := by
  have hu := u.property
  have hv := v.property
  replace h := congrArg String.data h
  simp only [UUID.String, List.append_assoc] at h
  have len : ∀ l1 l2 : List (Fin 256), l1.length = l2.length →
      (hexEncode l1).length = (hexEncode l2).length := by
    intro l1 l2 hl
    rw [hexEncode_length, hexEncode_length, hl]
  obtain ⟨h1, h⟩ := List.append_inj h (len _ _ (by simp [hu, hv]))
  simp only [List.cons.injEq, true_and, List.cons_append] at h
  obtain ⟨h2, h⟩ := List.append_inj h (len _ _ (by simp [hu, hv]))
  simp only [List.cons.injEq, true_and, List.cons_append] at h
  obtain ⟨h3, h⟩ := List.append_inj h (len _ _ (by simp [hu, hv]))
  simp only [List.cons.injEq, true_and, List.cons_append] at h
  obtain ⟨h4, h⟩ := List.append_inj h (len _ _ (by simp [hu, hv]))
  simp only [List.cons.injEq, true_and] at h
  have e10 := hexEncode_inj _ _ h
  have e8 := drop_eq_of_take_drop u.val v.val 8 2 (hexEncode_inj _ _ h4) e10
  have e6 := drop_eq_of_take_drop u.val v.val 6 2 (hexEncode_inj _ _ h3) e8
  have e4 := drop_eq_of_take_drop u.val v.val 4 2 (hexEncode_inj _ _ h2) e6
  have e0 := drop_eq_of_take_drop u.val v.val 0 4 (by simpa using hexEncode_inj _ _ h1)
    (by simpa using e4)
  exact Subtype.ext (by simpa using e0)

theorem Parse_ok_cases (lowerTable : Char → Char) (rnd : UUID) (text : String)
    (req : AgentRequest) (h : Parse lowerTable rnd text = .ok req) :
    req.ID = (NewRandom rnd).String ∧
    ((req.Agent = "calendar" ∧ req.Action = "create_event" ∧
        req.Payload = [("title", Value.str text)] ∧
        containsAny lowerTable text calendarWords = true) ∨
     (req.Agent = "todo" ∧ req.Action = "add_task" ∧
        req.Payload = [("task", Value.str text)] ∧
        containsAny lowerTable text calendarWords = false)) := by
  cases hc : containsAny lowerTable text calendarWords with
  | true =>
    rw [Parse_of_calendar lowerTable rnd text hc] at h
    cases h
    exact ⟨rfl, Or.inl ⟨rfl, rfl, rfl, rfl⟩⟩
  | false =>
    cases ht : containsAny lowerTable text todoWords with
    | true =>
      rw [Parse_of_todo lowerTable rnd text hc ht] at h
      cases h
      exact ⟨rfl, Or.inr ⟨rfl, rfl, rfl, rfl⟩⟩
    | false =>
      rw [Parse_of_neither lowerTable rnd text hc ht] at h
      cases h

/-- Letter case is the one of `unicode.ToLower`: with the table entry that
sends U+0130 to the letter i, a text spelling MEETING with that capital is a
calendar text, also next to a todo word. -/
theorem Parse_unicode_case_example :
    (Parse sampleLowerTable zeroDraw "remind me: MEETİNG").toOption.map (·.Agent) =
      some "calendar" := by
  decide

/-- C8, as the code has it: two calls of `Parse` on the same text that both
succeed yield requests with the same agent, action and payload; the id of each
is the text form of the version-4 UUID made from the 16 random bytes of its
call, and the two ids differ exactly when those two UUIDs differ. -/
theorem Parse_ids (lowerTable : Char → Char) (r1 r2 : UUID) (text : String)
    (req1 req2 : AgentRequest) (h1 : Parse lowerTable r1 text = .ok req1)
    (h2 : Parse lowerTable r2 text = .ok req2) :
    req1.Agent = req2.Agent ∧ req1.Action = req2.Action ∧ req1.Payload = req2.Payload ∧
    req1.ID = (NewRandom r1).String ∧ req2.ID = (NewRandom r2).String ∧
    (req1.ID ≠ req2.ID ↔ NewRandom r1 ≠ NewRandom r2) := by
  obtain ⟨i1, c1⟩ := Parse_ok_cases lowerTable r1 text req1 h1
  obtain ⟨i2, c2⟩ := Parse_ok_cases lowerTable r2 text req2 h2
  have hid : req1.ID ≠ req2.ID ↔ NewRandom r1 ≠ NewRandom r2 := by
    rw [i1, i2]
    exact not_congr ⟨UUID_String_inj _ _, fun e => by rw [e]⟩
  rcases c1 with ⟨a1, b1, p1, k1⟩ | ⟨a1, b1, p1, k1⟩ <;>
    rcases c2 with ⟨a2, b2, p2, k2⟩ | ⟨a2, b2, p2, k2⟩
  · exact ⟨by rw [a1, a2], by rw [b1, b2], by rw [p1, p2], i1, i2, hid⟩
  · rw [k1] at k2; cases k2
  · rw [k1] at k2; cases k2
  · exact ⟨by rw [a1, a2], by rw [b1, b2], by rw [p1, p2], i1, i2, hid⟩

/-- Witness of C8 as amended: two calls on "schedule a meeting with bob" whose
draws differ in the first byte. -/
theorem Parse_ids_witness :
    (∃ req1 req2 : AgentRequest,
      Parse id zeroDraw "schedule a meeting with bob" = .ok req1 ∧
      Parse id oneDraw "schedule a meeting with bob" = .ok req2 ∧
      req1.Agent = req2.Agent ∧ req1.Action = req2.Action ∧ req1.Payload = req2.Payload ∧
      req1.ID = "00000000-0000-4000-8000-000000000000" ∧
      req2.ID = "01000000-0000-4000-8000-000000000000" ∧
      req1.ID ≠ req2.ID) :=
  have h := Parse_ids id zeroDraw oneDraw "schedule a meeting with bob" _ _ rfl rfl
  ⟨_, _, rfl, rfl, h.1, h.2.1, h.2.2.1, h.2.2.2.1.trans (by decide),
    h.2.2.2.2.1.trans (by decide), h.2.2.2.2.2.mpr (by decide)⟩

/-- C8 as stated fails: two calls of `Parse` on the same text, with two
different draws of random bytes, both succeed and return the same id. -/
theorem Parse_same_id_twice :
    zeroDraw ≠ markedDraw ∧
    ∃ req1 req2 : AgentRequest,
      Parse id zeroDraw "schedule a meeting with bob" = .ok req1 ∧
      Parse id markedDraw "schedule a meeting with bob" = .ok req2 ∧
      req1.ID = req2.ID :=
  ⟨by decide, _, _, rfl, rfl, by decide⟩

end DebussyOps
